import Mathlib

/-!
Shallow embedding of the emc-toolkit Python sources
(`rigol/dsa800.py`, `rigol/storage.py`, `component/component.py`,
`afe/antenna.py`, `emc/limit.py`) and proofs about them.

Conventions used throughout:
* Python floats are modelled as exact rationals (`ℚ`).
* Instrument frequencies written with `"%d"` formatting and read back with
  `int(...)` are modelled as integers (`ℤ`), with float-to-int truncation
  toward zero.
* Fallible Python code (exceptions) is modelled with `Except`/`Option`;
  external collaborators (the VISA instrument, scipy's spline evaluator)
  are modelled as explicit function parameters.
-/

/-! ## CSV cell model

`csv.reader` yields every cell as a string; `np.array(rows, dtype=np.float)`
converts numeric-looking strings and raises `ValueError` on the rest.  A cell
is modelled as `num q` when its text parses as the number `q` and as `str s`
otherwise, so the numeric conversion succeeds exactly on `num` cells. -/

inductive CsvCell where
  | str (s : String)
  | num (q : ℚ)
deriving DecidableEq

/-- Errors raised while loading a calibration table: `formatError` abstracts
the `StopIteration`/`ValueError` raised when the header line is missing or a
row is non-numeric, `dataError` abstracts the scipy `splrep` failure on too
few / non-increasing knots, `indexError` the numpy `IndexError` raised when a
column is missing altogether. -/
inductive LoadErr where
  | formatError
  | dataError
  | indexError
deriving DecidableEq

/-- The `while line != header: line = next(r)` loop of `component.__init__` /
`antenna.__init__`: drop rows until the header row; `none` models the
uncaught `StopIteration` when the header never occurs. -/
def skipHeader (hdr : List CsvCell) : List (List CsvCell) → Option (List (List CsvCell))
  | [] => none
  | r :: rs => if r = hdr then some rs else skipHeader hdr rs

def cellNum : CsvCell → Option ℚ
  | .num q => some q
  | .str _ => none

/-- Elementwise fallible conversion (numpy's per-cell float conversion). -/
def mapOption {α β : Type} (f : α → Option β) : List α → Option (List β)
  | [] => some []
  | a :: l =>
    match f a with
    | none => none
    | some b =>
      match mapOption f l with
      | none => none
      | some bs => some (b :: bs)

/-- Models `np.array(list(r), dtype=np.float)` on the rows after the header:
every cell must be numeric and the rows rectangular, otherwise numpy raises
`ValueError` (modelled as `none`). -/
def parseMatrix (rows : List (List CsvCell)) : Option (List (List ℚ)) :=
  match mapOption (fun r => mapOption cellNum r) rows with
  | none => none
  | some M => if M.all (fun r => r.length = (M.headD []).length) then some M else none

/-- Models the numpy column access `factors.T[j]`: defined only when the
matrix is non-empty and every row is long enough (numpy raises `IndexError`
otherwise). -/
def colAt (M : List (List ℚ)) (j : ℕ) : Option (List ℚ) :=
  if M ≠ [] ∧ M.all (fun r => j < r.length) then some (M.map (fun r => r.getD j 0)) else none

/-- Models `component` from `component/component.py`: a gain/loss calibration table.
`tck` is the fitted spline, kept as the evaluation function returned by the
external scipy call. -/
structure component where
  name : String
  loss : Bool
  factors : List (List ℚ)
  tck : ℚ → ℚ
  start_freq : ℚ
  stop_freq : ℚ

/-- Models `component.__init__`: locate the `Frequency,Factor` header, parse the
numeric rows, extract the two columns, and fit the spline.  `splev` is the
external scipy evaluator (`interpolate.splrep`/`splev` with `s=0`, cubic);
its precondition — more than `k = 3` points with strictly increasing
knots — is checked here and its violation (a scipy error) is `dataError`. -/
def component.init (name : String) (rows : List (List CsvCell)) (loss : Bool)
    (splev : List ℚ → List ℚ → ℚ → ℚ) : Except LoadErr component :=
  match skipHeader [CsvCell.str "Frequency", CsvCell.str "Factor"] rows with
  | none => .error .formatError
  | some rest =>
    match parseMatrix rest with
    | none => .error .formatError
    | some factors =>
      match colAt factors 0, colAt factors 1 with
      | some f, some gl =>
        if 4 ≤ f.length ∧ List.Chain' (· < ·) f then
          .ok { name := name, loss := loss, factors := factors, tck := splev f gl,
                start_freq := f.headD 0, stop_freq := f.getLastD 0 }
        else .error .dataError
      | _, _ => .error .indexError

/-- Models `component.get_factors`: `interpolate.splev(freq, self.tck, der=0)`,
the spline evaluated at each input frequency. -/
def component.get_factors (c : component) (freq : List ℚ) : List ℚ :=
  freq.map c.tck

/-- Models `component.corrected_measurement`: transpose the trace, add the
interpolated factors for a loss (subtract for a gain), and re-assemble
`np.array([tr[0], corrected]).T`. -/
def component.corrected_measurement (c : component) (trace : List (List ℚ)) : List (List ℚ) :=
  let tr0 := trace.map (fun r => r.getD 0 0)
  let tr1 := trace.map (fun r => r.getD 1 0)
  let gl := c.get_factors tr0
  let corrected := if c.loss then List.zipWith (· + ·) tr1 gl else List.zipWith (· - ·) tr1 gl
  List.zipWith (fun f v => [f, v]) tr0 corrected

/-- Models `antenna` from `afe/antenna.py`: an antenna-factor table (always a
loss; the correction is always additive). -/
structure antenna where
  afe : List (List ℚ)
  tck : ℚ → ℚ
  start_freq : ℚ
  stop_freq : ℚ

/-- Models `antenna.__init__`: same loading scheme as `component.init` but with the
`Frequency,AF` header and no gain/loss flag. -/
def antenna.init (rows : List (List CsvCell))
    (splev : List ℚ → List ℚ → ℚ → ℚ) : Except LoadErr antenna :=
  match skipHeader [CsvCell.str "Frequency", CsvCell.str "AF"] rows with
  | none => .error .formatError
  | some rest =>
    match parseMatrix rest with
    | none => .error .formatError
    | some afe =>
      match colAt afe 0, colAt afe 1 with
      | some f, some af =>
        if 4 ≤ f.length ∧ List.Chain' (· < ·) f then
          .ok { afe := afe, tck := splev f af,
                start_freq := f.headD 0, stop_freq := f.getLastD 0 }
        else .error .dataError
      | _, _ => .error .indexError

/-- Models `antenna.antenna_factors`: the spline evaluated at each frequency. -/
def antenna.antenna_factors (a : antenna) (freq : List ℚ) : List ℚ :=
  freq.map a.tck

/-- Models `antenna.corrected_measurement`: always adds the antenna factor. -/
def antenna.corrected_measurement (a : antenna) (trace : List (List ℚ)) : List (List ℚ) :=
  let tr0 := trace.map (fun r => r.getD 0 0)
  let tr1 := trace.map (fun r => r.getD 1 0)
  let af := a.antenna_factors tr0
  let corrected := List.zipWith (· + ·) tr1 af
  List.zipWith (fun f v => [f, v]) tr0 corrected

/-! ## Emissions limits (`emc/limit.py`) -/

/-- The fixed `limit_table` dict of the `limit` class: per standard, rows
`(low, high, uV/m(3m), dBuV/m(3m), uV/m(10m), dBuV/m(10m))`, kept as
6-element lists so a unit index selects a column. -/
def limit_table : List (String × List (List ℚ)) :=
  [("fccclassa",
      [[30000000, 88000000, 300, 49.6, 90, 39.1],
       [88000000, 216000000, 500, 54, 150, 43.5],
       [216000000, 960000000, 700, 56.9, 210, 46.4],
       [960000000, 10000000000, 1000, 60, 300, 49.5]]),
   ("fccclassb",
      [[30000000, 88000000, 100, 40, 30, 29.5],
       [88000000, 216000000, 150, 43.5, 45, 33.1],
       [216000000, 960000000, 200, 46, 60, 35.6],
       [960000000, 10000000000, 500, 54, 150, 43.5]]),
   ("cispr22classa",
      [[30000000, 230000000, 333.3, 50.5, 100, 40],
       [230000000, 1000000000, 746.2, 57.5, 223.9, 47]]),
   ("cispr22classb",
      [[30000000, 230000000, 105.4, 40.5, 31.6, 30],
       [230000000, 1000000000, 236, 47.5, 70.8, 37]])]

/-- The `unit_index` dict: column selected by each unit name. -/
def unit_index : List (String × ℕ) :=
  [("uV/m(3m)", 2), ("dBuV/m(3m)", 3), ("uV/m(10m)", 4), ("dBuV/m(10m)", 5)]

/-- Failures of `limit.limit_func`: the `KeyError` on an unknown standard or
unit name (named after the spec's taxonomy), and the `IndexError` that would
be raised by `rows[0]` on an empty row list. -/
inductive LimitErr where
  | unknownStandard
  | unknownUnit
  | indexError
deriving DecidableEq

def getUnitIdx (units : String) : Except LimitErr ℕ :=
  match unit_index.lookup units with
  | some i => .ok i
  | none => .error .unknownUnit

/-- The `for l in self.limit_table[standard]` loop of `limit_func`: the unit
column index is looked up afresh for every row (its `KeyError` therefore
fires on the first iteration), and the entries of the row's half-open range
`(low, high]` are overwritten with the row's value in that column. -/
def limitLoop (units : String) (freq : List ℚ) :
    List (List ℚ) → List ℚ → Except LimitErr (List ℚ)
  | [], vec => .ok vec
  | l :: rows, vec =>
    match getUnitIdx units with
    | .error e => .error e
    | .ok idx =>
      limitLoop units freq rows (List.zipWith
        (fun f v => if l.getD 0 0 < f ∧ f ≤ l.getD 1 0 then l.getD idx 0 else v) freq vec)

/-- Models `limit.limit_func(standard, units, freq)`: start from a zero vector, run
the row loop, then map `freq == lowest boundary` to the first row's value
(the unit column is looked up once more for this fix-up, exactly as in the
source). -/
def limit_func (standard units : String) (freq : List ℚ) : Except LimitErr (List ℚ) :=
  match limit_table.lookup standard with
  | none => .error .unknownStandard
  | some rows =>
    match limitLoop units freq rows (freq.map (fun _ => (0 : ℚ))) with
    | .error e => .error e
    | .ok vec =>
      match rows.head? with
      | none => .error .indexError
      | some first =>
        match getUnitIdx units with
        | .error e => .error e
        | .ok idx =>
          .ok (List.zipWith
            (fun f v => if f = first.getD 0 0 then first.getD idx 0 else v) freq vec)

/-- The per-frequency lookup as the spec words it: the value (in the selected
unit column) of the row whose half-open range `(low, high]` contains the
frequency, with the exact lowest boundary also mapped to the first row's
value, and zero when no row matches. -/
def limitSpecValue (rows : List (List ℚ)) (idx : ℕ) (f : ℚ) : ℚ :=
  if f = (rows.headD []).getD 0 0 then (rows.headD []).getD idx 0
  else
    match rows.find? (fun l => decide (l.getD 0 0 < f ∧ f ≤ l.getD 1 0)) with
    | some l => l.getD idx 0
    | none => 0

/-! ## The DSA800 instrument and the segmented acquisition (`rigol/dsa800.py`)

The VISA-connected instrument is modelled by the state the acquisition code
reads and writes: the continuous-sweep enable, the sweep count, the trace
mode, and the programmed start/stop frequencies.  Frequencies are written
with `"%d"` formatting and read back through `int(...)`, so the stored
values are integers, obtained by truncating the rational toward zero.
Timing calls (`get_sweep_time`, `time.sleep`, the sweep-count polling loop)
only delay execution and are not part of the state.  The per-segment trace
buffers delivered by `get_trace` are an input of the model: `read i` is the
buffer returned during the `i`-th loop iteration. -/

structure InstrState where
  continuousEn : Bool
  sweepCount : ℤ
  traceMode : String
  startFreq : ℤ
  stopFreq : ℤ
deriving DecidableEq, Repr

/-- Python `"%d" % x` on a float: truncation toward zero. -/
def pyInt (q : ℚ) : ℤ :=
  if 0 ≤ q then ⌊q⌋ else ⌈q⌉

/-- Models `TRACE_MODE.values()` — the accepted write-form trace-mode names. -/
def TRACE_MODE_values : List String :=
  ["WRITe", "MAXHold", "MINHold", "VIEW", "BLANk", "VIDeoavg", "POWeravg"]

namespace dsa800

def set_continuous_en (st : InstrState) (en : Bool) : InstrState :=
  { st with continuousEn := en }

/-- Models `set_sweep_count` writes only when `1 <= count <= 9999`; otherwise it
just prints a message and leaves the instrument untouched. -/
def set_sweep_count (st : InstrState) (count : ℤ) : InstrState :=
  if 1 ≤ count ∧ count ≤ 9999 then { st with sweepCount := count } else st

/-- Models `set_trace_mode` writes only when the mode is a legal write-form name. -/
def set_trace_mode (st : InstrState) (mode : String) : InstrState :=
  if mode ∈ TRACE_MODE_values then { st with traceMode := mode } else st

def set_start_freq (st : InstrState) (freq : ℚ) : InstrState :=
  { st with startFreq := pyInt freq }

def set_stop_freq (st : InstrState) (freq : ℚ) : InstrState :=
  { st with stopFreq := pyInt freq }

end dsa800

/-- Models `np.linspace a b n`: `n` evenly spaced points from `a` to `b`
inclusive. -/
def linspace (a b : ℚ) (n : ℕ) : List ℚ :=
  if n = 0 then []
  else if n = 1 then [a]
  else (List.range n).map (fun i : ℕ => a + (i : ℚ) * ((b - a) / ((n : ℚ) - 1)))

/-- Numpy boolean-mask indexing `xs[mask]`: keep the entries of `xs` whose
mask entry is true. -/
def applyMask : List Bool → List ℚ → List ℚ
  | true :: bs, x :: xs => x :: applyMask bs xs
  | false :: bs, _ :: xs => applyMask bs xs
  | _, _ => []

/-- Outcome of the `while start_f < stop_freq` segment loop: the state, the
accumulated trimmed samples, and the Python variable `trace_data` (the last
buffer read, still unassigned — `none` — if the body never ran). -/
inductive LoopOut where
  | done (st : InstrState) (trace : List ℚ) (trace_data : Option (List ℚ))
  | fuelOut

/-- The segment loop of `get_trace_adv` (fuel-indexed; `fuelOut` models
non-termination, which cannot occur with positive span).  Each iteration
re-issues the remembered trace mode, programs the segment's start/stop
frequencies, reads one buffer and appends all its samples but the last. -/
def segLoop (read : ℕ → List ℚ) (stop_freq span : ℚ) (tm : String) :
    ℕ → ℕ → ℚ → InstrState → List ℚ → Option (List ℚ) → LoopOut
  | fuel, i, start_f, st, trace, trace_data =>
    if start_f < stop_freq then
      match fuel with
      | 0 => .fuelOut
      | fuel + 1 =>
        let st1 := dsa800.set_trace_mode st tm
        let st2 := dsa800.set_start_freq st1 start_f
        let st3 := dsa800.set_stop_freq st2 (start_f + span)
        let buf := read i
        segLoop read stop_freq span tm fuel (i + 1) (start_f + span) st3
          (trace ++ buf.dropLast) (some buf)
    else .done st trace trace_data

/-- Result of one `get_trace_adv` call: the final instrument state and the
returned n×2 array (as frequency/amplitude pairs), a raised exception
(`err`: the `NameError` on `trace_data` when the loop never ran, or the
`IndexError` on an empty final buffer), or non-termination (`diverge`). -/
inductive AcqResult where
  | ok (st : InstrState) (trace : List (ℚ × ℚ))
  | err
  | diverge

namespace dsa800

/-- Models `dsa800.get_trace_adv(start_freq, stop_freq, span, sweeps)`: remember the
continuous-sweep and sweep-count settings, switch to single sweep with the
requested count, run the segment loop, restore the two settings, append the
true final sample, rebuild the frequency axis as a uniform ramp from
`start_freq` to the instrument's reported stop frequency, and drop every
point at or beyond the requested `stop_freq`. -/
def get_trace_adv (read : ℕ → List ℚ) (st : InstrState)
    (start_freq stop_freq span : ℚ) (sweeps : ℤ) (fuel : ℕ) : AcqResult :=
  let continuous_sweep := st.continuousEn
  let sweep_count := st.sweepCount
  let st := set_continuous_en st false
  let st := set_sweep_count st sweeps
  let tm := st.traceMode
  match segLoop read stop_freq span tm fuel 0 start_freq st [] none with
  | .fuelOut => .diverge
  | .done st trace trace_data =>
    let st := set_continuous_en st continuous_sweep
    let st := set_sweep_count st sweep_count
    match trace_data with
    | none => .err
    | some buf =>
      match buf.getLast? with
      | none => .err
      | some endpoint =>
        let trace := trace ++ [endpoint]
        let freq := linspace start_freq (st.stopFreq : ℚ) trace.length
        let mask := freq.map (fun f => decide (f < stop_freq))
        .ok st ((applyMask mask freq).zip (applyMask mask trace))

end dsa800

/-! ## Dynamically typed configuration values (`dsa800_config`, `rigol/storage.py`)

`dsa800_config.__init__(param, json_keys, json_values)` is called both with a
parameter dict and — by `Measurement.load_csv` — with plain lists, so its
arguments are modelled with a small universe of Python values.  Dictionaries
are insertion-ordered association lists with string keys (all configuration
keys in the system are strings). -/

inductive PyVal where
  | none
  | bool (b : Bool)
  | int (n : ℤ)
  | str (s : String)
  | list (xs : List PyVal)
  | dict (kvs : List (String × PyVal))

/-- Python truthiness of the modelled values. -/
def pyTruthy : PyVal → Bool
  | .none => false
  | .bool b => b
  | .int n => n != 0
  | .str s => s ≠ ""
  | .list xs => !xs.isEmpty
  | .dict kvs => !kvs.isEmpty

/-- Exceptions surfaced by the storage/configuration code. -/
inductive PyErr where
  | valueError
  | typeError
  | keyError
  | indexError
  | attrError
deriving DecidableEq

/-- Models `json.dumps` on the value kinds the configuration actually holds
(configuration keys and values never need string escaping). -/
def jsonDumps : PyVal → String
  | .none => "null"
  | .bool true => "true"
  | .bool false => "false"
  | .int n => toString n
  | .str s => "\"" ++ s ++ "\""
  | .list _ => "[]"
  | .dict _ => "{}"

/-- Models `json.loads` on the scalar fragment produced by `jsonDumps` (null,
booleans, integers, double-quoted strings without escapes); anything else is
a parse error. -/
def jsonLoads (s : String) : Except PyErr PyVal :=
  if s = "null" then .ok .none
  else if s = "true" then .ok (.bool true)
  else if s = "false" then .ok (.bool false)
  else if s.length ≥ 2 ∧ s.front = '"' ∧ s.back = '"' then
    .ok (.str ((s.drop 1).dropRight 1))
  else
    match s.toInt? with
    | some n => .ok (.int n)
    | Option.none => .error .valueError

/-- Ordered-dict insertion: overwrite in place if the key exists, append
otherwise. -/
def dictInsert (d : List (String × PyVal)) (k : String) (v : PyVal) : List (String × PyVal) :=
  if d.any (fun kv => kv.1 = k) then
    d.map (fun kv => if kv.1 = k then (k, v) else kv)
  else d ++ [(k, v)]

/-- The element loop of `dict.update(iterable)`: each element must be a
key/value pair — a 2-element list, or a 2-character string (whose two
characters become key and value).  Any other element raises `ValueError`
("dictionary update sequence element has length …"); non-string keys are not
used anywhere in the system and are mapped to `typeError`. -/
def dictUpdateSeq (d : List (String × PyVal)) : List PyVal → Except PyErr (List (String × PyVal))
  | [] => .ok d
  | e :: xs =>
    match e with
    | .list [PyVal.str k, v] => dictUpdateSeq (dictInsert d k v) xs
    | .list _ => .error .valueError
    | .str s =>
      if s.length = 2 then
        dictUpdateSeq
          (dictInsert d (String.singleton (s.get 0)) (.str (String.singleton (s.get ⟨1⟩)))) xs
      else .error .valueError
    | _ => .error .typeError

/-- Models `dict.update(x)`: merge in a dict, or iterate a key/value sequence. -/
def dictUpdate (d : List (String × PyVal)) (x : PyVal) : Except PyErr (List (String × PyVal)) :=
  match x with
  | .dict kvs => .ok (kvs.foldl (fun acc kv => dictInsert acc kv.1 kv.2) d)
  | .list xs => dictUpdateSeq d xs
  | _ => .error .typeError

/-- The default parameter dict of `dsa800_config.__init__`. -/
def default_param : List (String × PyVal) :=
  [("data_format", .str "ASCii"),
   ("trace_mode", .str "WRITe"),
   ("sweep_points", .int 601),
   ("preamp_en", .bool false),
   ("units", .str "DBM"),
   ("emi_filter_en", .bool false),
   ("rbw", .int 100000),
   ("tg_en", .bool false),
   ("tg_amplitude", .int (-40)),
   ("det_func", .str "POSitive")]

/-- A `dsa800_config` object: the ordered `param` dict. -/
structure dsa800_config where
  param : List (String × PyVal)

/-- Models `[json.loads(k) for k in ...]` over a list of JSON strings; a non-string
element is a type error (string iteration is not used by any caller). -/
def jsonLoadsSeq : List PyVal → Except PyErr (List PyVal)
  | [] => .ok []
  | e :: xs =>
    match e with
    | .str s =>
      match jsonLoads s with
      | .error er => .error er
      | .ok v =>
        match jsonLoadsSeq xs with
        | .error er => .error er
        | .ok vs => .ok (v :: vs)
    | _ => .error .typeError

/-- Helper for `dsa800_config.init`: decode a JSON-string list. -/
def jsonLoadsList (x : PyVal) : Except PyErr (List PyVal) :=
  match x with
  | .list xs => jsonLoadsSeq xs
  | _ => .error .typeError

/-- Models `dict(zip(key_list, value_list))` with string keys: in-order insertion,
later duplicates overwriting earlier entries. -/
def dictOfZipAux (acc : List (String × PyVal)) :
    List (PyVal × PyVal) → Except PyErr (List (String × PyVal))
  | [] => .ok acc
  | kv :: rest =>
    match kv.1 with
    | .str k => dictOfZipAux (dictInsert acc k kv.2) rest
    | _ => .error .typeError

def dictOfZip (pairs : List (PyVal × PyVal)) : Except PyErr (List (String × PyVal)) :=
  dictOfZipAux [] pairs

/-- Models `dsa800_config.__init__(param, json_keys, json_values)`: when both JSON
lists are truthy, decode them and zip into the parameter dict; otherwise
start from the defaults and `update` with `param` when truthy. -/
def dsa800_config.init (param json_keys json_values : PyVal) :
    Except PyErr dsa800_config :=
  if pyTruthy json_keys ∧ pyTruthy json_values then
    match jsonLoadsList json_keys with
    | .error er => .error er
    | .ok key_list =>
      match jsonLoadsList json_values with
      | .error er => .error er
      | .ok value_list =>
        match dictOfZip (key_list.zip value_list) with
        | .error er => .error er
        | .ok d => .ok { param := d }
  else
    if pyTruthy param then
      match dictUpdate default_param param with
      | .error er => .error er
      | .ok d => .ok { param := d }
    else .ok { param := default_param }

/-- Models `dsa800_config.get_json_names()`. -/
def dsa800_config.get_json_names (c : dsa800_config) : List String :=
  c.param.map (fun kv => jsonDumps (.str kv.1))

/-- Models `dsa800_config.get_json_values()`. -/
def dsa800_config.get_json_values (c : dsa800_config) : List String :=
  c.param.map (fun kv => jsonDumps kv.2)

/-! ## Measurement records (`rigol/storage.py`)

A serialized measurement is a CSV file: a title row, a row of JSON-encoded
configuration keys, a row of JSON-encoded configuration values, a header
row, and numeric data rows.  The numeric rows are kept as rationals: the
float-text round trip of the CSV layer is modelled as exact. -/

structure CsvRecord where
  titleRow : List String
  keysRow : List String
  valuesRow : List String
  headerRow : List String
  dataRows : List (List ℚ)

/-- The `limit` class instance attached with `add_limit` carries no
per-object data (its tables are class-level constants). -/
structure limitObj where
  unit : Unit

/-- A `Measurement` object (its fields after `__init__`). -/
structure Measurement where
  title : String
  config : dsa800_config
  data : List (List ℚ)
  components : List component
  lim : Option limitObj
  corrected_data : Option (List ℚ)
  limit_data : Option (List ℚ)

namespace Measurement

/-- Models `Measurement.freq()`: `self.data[:,0]`. -/
def freq (m : Measurement) : List ℚ :=
  m.data.map (fun r => r.getD 0 0)

/-- Models `Measurement.measured()`: `self.data[:,1]`. -/
def measured (m : Measurement) : List ℚ :=
  m.data.map (fun r => r.getD 1 0)

/-- Models `Measurement.corrected()`: return the cached column when truthy,
otherwise fold every component's correction over a copy of the data and
return its second column.  (`if self.corrected_data:` is falsy for `None`
and for an empty array; `__init__` in fact always leaves the field `None` —
see `init_from_file`.) -/
def corrected (m : Measurement) : List ℚ :=
  match m.corrected_data with
  | some cd =>
    if cd ≠ [] then cd
    else (m.components.foldl (fun acc c => c.corrected_measurement acc) m.data).map
      (fun r => r.getD 1 0)
  | none =>
    (m.components.foldl (fun acc c => c.corrected_measurement acc) m.data).map
      (fun r => r.getD 1 0)

/-- Models `Measurement.limit()`: return the cached column when truthy; otherwise
call `self.lim.limit_func(self.freq())`.  With no limit attached this is an
attribute error on `None`; with one attached it is a `TypeError`, because
`limit.limit_func(self, standard, units, freq)` is called with a single
argument. -/
def limit (m : Measurement) : Except PyErr (List ℚ) :=
  match m.limit_data with
  | some ld =>
    if ld ≠ [] then .ok ld
    else
      match m.lim with
      | some _ => .error .typeError
      | none => .error .attrError
  | none =>
    match m.lim with
    | some _ => .error .typeError
    | none => .error .attrError

/-- Models `Measurement.add_trace`. -/
def add_trace (m : Measurement) (trace : List (List ℚ)) : Measurement :=
  { m with data := trace }

/-- Models `Measurement.add_component`. -/
def add_component (m : Measurement) (comp : component) : Measurement :=
  { m with components := m.components ++ [comp] }

/-- Models `Measurement.add_limit`. -/
def add_limit (m : Measurement) (l : limitObj) : Measurement :=
  { m with lim := some l }

/-- Models `Measurement.save_to_csv`: title row, JSON-encoded configuration,
headers (`Frequency (Hz)`, `DSA`, one column per component, then
`Corrected` when components exist and `Limit` when a limit is attached),
and the transposed data columns. -/
def save_to_csv (m : Measurement) : Except PyErr CsvRecord :=
  let headings₁ := ["Frequency (Hz)", "DSA"] ++ m.components.map (fun c => c.name)
  let columns₁ := [m.freq, m.measured] ++ m.components.map (fun c => c.get_factors m.freq)
  let headings₂ := if m.components.length > 0 then headings₁ ++ ["Corrected"] else headings₁
  let columns₂ := if m.components.length > 0 then columns₁ ++ [m.corrected] else columns₁
  match m.lim with
  | some _ =>
    match m.limit with
    | .error e => .error e
    | .ok lim =>
      .ok { titleRow := [m.title],
            keysRow := m.config.get_json_names,
            valuesRow := m.config.get_json_values,
            headerRow := headings₂ ++ ["Limit"],
            dataRows := (columns₂ ++ [lim]).transpose }
  | none =>
    .ok { titleRow := [m.title],
          keysRow := m.config.get_json_names,
          valuesRow := m.config.get_json_values,
          headerRow := headings₂,
          dataRows := columns₂.transpose }

/-- Models `dict((v,i) for i,v in enumerate(headings))` followed by a key lookup:
the index of the last occurrence of the heading, `keyError` if absent. -/
def headingIndex (headings : List String) (key : String) : Except PyErr ℕ :=
  match (headings.enum.filter (fun iv => iv.2 = key)).getLast? with
  | some iv => .ok iv.1
  | none => .error .keyError

/-- Fetch data column `j` (`self.data[:, j]`); out-of-range is numpy's
`IndexError`. -/
def dataColumn (rows : List (List ℚ)) (j : ℕ) : Except PyErr (List ℚ) :=
  if rows.all (fun r => j < r.length) then .ok (rows.map (fun r => r.getD j 0))
  else .error .indexError

/-- Models `Measurement.load_csv`: read the title, build the configuration via
`dsa800_config(config_keys, config_values)` — both arguments positional, so
the key list lands in the `param` slot — take the numeric data (which must
be rectangular), and store the `Corrected` and `Limit` columns. -/
def load_csv (f : CsvRecord) : Except PyErr Measurement :=
  match f.titleRow.head? with
  | Option.none => .error .indexError
  | some title =>
    match dsa800_config.init (.list (f.keysRow.map .str)) (.list (f.valuesRow.map .str)) .none with
    | .error e => .error e
    | .ok config =>
      if f.dataRows.all (fun r => r.length = (f.dataRows.headD []).length) then
        match headingIndex f.headerRow "Corrected" with
        | .error e => .error e
        | .ok jc =>
          match dataColumn f.dataRows jc with
          | .error e => .error e
          | .ok corrected_col =>
            match headingIndex f.headerRow "Limit" with
            | .error e => .error e
            | .ok jl =>
              match dataColumn f.dataRows jl with
              | .error e => .error e
              | .ok limit_col =>
                .ok { title := title, config := config, data := f.dataRows,
                      components := [], lim := Option.none,
                      corrected_data := some corrected_col, limit_data := some limit_col }
      else .error .valueError

/-- The unconditional tail of `Measurement.__init__` (lines run after the
load/assemble branch): `self.components = []`, `self.lim = None`,
`self.corrected_data = None`, `self.limit_data = None`. -/
def initTail (m : Measurement) : Measurement :=
  { m with components := [], lim := none, corrected_data := none, limit_data := none }

/-- Models `Measurement(filename=...)`: run `load_csv`, then the `__init__` tail,
which resets the component list, the limit, and both cached columns. -/
def init_from_file (f : CsvRecord) : Except PyErr Measurement :=
  match load_csv f with
  | .error e => .error e
  | .ok m => .ok (initTail m)

/-- Models `Measurement(title, dsaconfig)`: the assembly constructor (the `data`
field is only created later by `add_trace`; it starts empty here). -/
def init_new (title : String) (config : dsa800_config) : Measurement :=
  initTail { title := title, config := config, data := [],
             components := [], lim := none, corrected_data := none, limit_data := none }

end Measurement

/-- Serialization followed by deserialization, the spec's round trip. -/
def roundTrip (m : Measurement) : Except PyErr Measurement :=
  match m.save_to_csv with
  | .error e => .error e
  | .ok f => Measurement.init_from_file f


def cLossEx : component :=
  { name := "Cable loss", loss := true, factors := [], tck := fun f => f + 1,
    start_freq := 30, stop_freq := 1000 }

def cGainEx : component :=
  { name := "Preamp gain", loss := false, factors := [], tck := fun f => f + 1,
    start_freq := 30, stop_freq := 1000 }

def antEx : antenna :=
  { afe := [], tck := fun f => f + 1, start_freq := 30, stop_freq := 1000 }

/-- A trivial stand-in for the external scipy spline evaluator, used by
concrete witnesses. -/
def splevEx : List ℚ → List ℚ → ℚ → ℚ := fun _ _ _ => 0

def calRowsNoHeader : List (List CsvCell) :=
  [[CsvCell.str "junk"]]

def calRowsBadCell : List (List CsvCell) :=
  [[CsvCell.str "Frequency", CsvCell.str "Factor"],
   [CsvCell.num 30000000, CsvCell.str "oops"]]

def calRowsShort : List (List CsvCell) :=
  [[CsvCell.str "Frequency", CsvCell.str "Factor"],
   [CsvCell.num 30000000, CsvCell.num 10],
   [CsvCell.num 100000000, CsvCell.num 12]]

def calRowsGood : List (List CsvCell) :=
  [[CsvCell.str "Frequency", CsvCell.str "Factor"],
   [CsvCell.num 30000000, CsvCell.num 10],
   [CsvCell.num 100000000, CsvCell.num 12],
   [CsvCell.num 300000000, CsvCell.num 15],
   [CsvCell.num 1000000000, CsvCell.num 18]]

def calRowsGoodAF : List (List CsvCell) :=
  [[CsvCell.str "Frequency", CsvCell.str "AF"],
   [CsvCell.num 30000000, CsvCell.num 10],
   [CsvCell.num 100000000, CsvCell.num 12],
   [CsvCell.num 300000000, CsvCell.num 15],
   [CsvCell.num 1000000000, CsvCell.num 18]]

def cAntEx : component :=
  { name := "Antenna factor", loss := true, factors := [],
    tck := fun _ => 10, start_freq := 30000000, stop_freq := 1000000000 }

/-- An assembled measurement: title, default configuration, a two-point
trace and one loss component (no limit: with one attached, `save_to_csv`
already fails inside `Measurement.limit`). -/
def mEx : Measurement :=
  ((Measurement.init_new "Product X Radiated Emissions"
      { param := default_param }).add_trace
    [[30000000, 5], [100000000, 6]]).add_component cAntEx

/-- The CSV record `save_to_csv` produces for `mEx`. -/
def fEx : CsvRecord :=
  { titleRow := ["Product X Radiated Emissions"],
    keysRow := ["\"data_format\"", "\"trace_mode\"", "\"sweep_points\"", "\"preamp_en\"",
                "\"units\"", "\"emi_filter_en\"", "\"rbw\"", "\"tg_en\"",
                "\"tg_amplitude\"", "\"det_func\""],
    valuesRow := ["\"ASCii\"", "\"WRITe\"", "601", "false", "\"DBM\"", "false",
                  "100000", "false", "-40", "\"POSitive\""],
    headerRow := ["Frequency (Hz)", "DSA", "Antenna factor", "Corrected"],
    dataRows := [[30000000, 5, 10, 15], [100000000, 6, 10, 16]] }

/-- A previously serialized record carrying both a `Corrected` and a
`Limit` column. -/
def fStored : CsvRecord :=
  { titleRow := ["Stored measurement"],
    keysRow := ["\"trace_mode\""],
    valuesRow := ["\"MAXHold\""],
    headerRow := ["Frequency (Hz)", "DSA", "Antenna factor", "Corrected", "Limit"],
    dataRows := [[30000000, 5, 10, 15, 40.5]] }

def instrEx : InstrState :=
  { continuousEn := true, sweepCount := 10, traceMode := "WRITe", startFreq := 0, stopFreq := 0 }

/-! ## Helper lemmas -/

theorem zipWith_map_same {α β : Type} (g : β → β → β) (f₁ f₂ : α → β) (l : List α) :
    List.zipWith g (l.map f₁) (l.map f₂) = l.map (fun x => g (f₁ x) (f₂ x)) := by
  induction l with
  | nil => rfl
  | cons a l ih => simp [ih]

theorem zipWith_map_right_same {α β : Type} (g : α → β → β) (f : α → β) (l : List α) :
    List.zipWith g l (l.map f) = l.map (fun x => g x (f x)) := by
  induction l with
  | nil => rfl
  | cons a l ih => simp [ih]

/-! ## C2: sign-correctness of the corrections -/

/-- C2: applying a `loss`/antenna-factor component adds the interpolated
factor to the amplitude, a `gain` component subtracts it, and the frequency
column is returned unchanged. -/
theorem corrected_measurement_sign_correct (c : component) (a : antenna) (ps : List (ℚ × ℚ)) :
    (c.loss = true →
      c.corrected_measurement (ps.map (fun p => [p.1, p.2])) =
        ps.map (fun p => [p.1, p.2 + c.tck p.1])) ∧
    (c.loss = false →
      c.corrected_measurement (ps.map (fun p => [p.1, p.2])) =
        ps.map (fun p => [p.1, p.2 - c.tck p.1])) ∧
    (a.corrected_measurement (ps.map (fun p => [p.1, p.2])) =
      ps.map (fun p => [p.1, p.2 + a.tck p.1])) := by
  refine ⟨fun hl => ?_, fun hl => ?_, ?_⟩
  · simp [component.corrected_measurement, component.get_factors, hl,
      List.map_map, Function.comp_def, zipWith_map_same]
  · simp [component.corrected_measurement, component.get_factors, hl,
      List.map_map, Function.comp_def, zipWith_map_same]
  · simp [antenna.corrected_measurement, antenna.antenna_factors,
      List.map_map, Function.comp_def, zipWith_map_same]




/-- Witness for C2 at a concrete component, gain stage, antenna and trace. -/
theorem corrected_measurement_sign_correct_witness :
    cLossEx.corrected_measurement ([((2 : ℚ), (5 : ℚ))].map (fun p => [p.1, p.2])) =
      [((2 : ℚ), (5 : ℚ))].map (fun p => [p.1, p.2 + cLossEx.tck p.1]) ∧
    cGainEx.corrected_measurement ([((2 : ℚ), (5 : ℚ))].map (fun p => [p.1, p.2])) =
      [((2 : ℚ), (5 : ℚ))].map (fun p => [p.1, p.2 - cGainEx.tck p.1]) ∧
    antEx.corrected_measurement ([((2 : ℚ), (5 : ℚ))].map (fun p => [p.1, p.2])) =
      [((2 : ℚ), (5 : ℚ))].map (fun p => [p.1, p.2 + antEx.tck p.1]) :=
  ⟨(corrected_measurement_sign_correct cLossEx antEx [(2, 5)]).1 rfl,
   (corrected_measurement_sign_correct cGainEx antEx [(2, 5)]).2.1 rfl,
   (corrected_measurement_sign_correct cGainEx antEx [(2, 5)]).2.2⟩


/-! ## C5 / C8: the limit lookup -/

theorem limitLoop_ok (units : String) (idx : ℕ) (h : getUnitIdx units = .ok idx)
    (freq : List ℚ) (rows : List (List ℚ)) (init : List ℚ) :
    limitLoop units freq rows init =
      .ok (rows.foldl (fun vec l => List.zipWith
          (fun f v => if l.getD 0 0 < f ∧ f ≤ l.getD 1 0 then l.getD idx 0 else v) freq vec)
        init) := by
  induction rows generalizing init with
  | nil => rfl
  | cons r rows ih =>
    rw [limitLoop, h, List.foldl_cons]
    exact ih _

theorem foldl_zipWith_map {α : Type} (freq : List ℚ) (rows : List α)
    (step : α → ℚ → ℚ → ℚ) (g : ℚ → ℚ) :
    rows.foldl (fun vec l => List.zipWith (fun f v => step l f v) freq vec) (freq.map g) =
      freq.map (fun f => rows.foldl (fun v l => step l f v) (g f)) := by
  induction rows generalizing g with
  | nil => rfl
  | cons r rows ih =>
    simp only [List.foldl_cons]
    rw [zipWith_map_right_same, ih]

theorem foldl_rows_nomatch (idx : ℕ) (f v : ℚ) (rows : List (List ℚ))
    (h : ∀ l ∈ rows, ¬(l.getD 0 0 < f ∧ f ≤ l.getD 1 0)) :
    rows.foldl (fun v l => if l.getD 0 0 < f ∧ f ≤ l.getD 1 0 then l.getD idx 0 else v) v = v := by
  induction rows generalizing v with
  | nil => rfl
  | cons r rows ih =>
    rw [List.foldl_cons, if_neg (h r (List.mem_cons_self r rows))]
    exact ih _ (fun l hl => h l (List.mem_cons_of_mem r hl))

/-- With pairwise-disjoint `(low, high]` ranges, the last-match-wins fold of
the source equals a first-match lookup. -/
theorem foldl_rows_eq_find (idx : ℕ) (f v : ℚ) (rows : List (List ℚ))
    (hdis : rows.Pairwise (fun a b => a.getD 1 0 ≤ b.getD 0 0)) :
    rows.foldl (fun v l => if l.getD 0 0 < f ∧ f ≤ l.getD 1 0 then l.getD idx 0 else v) v =
      match rows.find? (fun l => decide (l.getD 0 0 < f ∧ f ≤ l.getD 1 0)) with
      | some l => l.getD idx 0
      | none => v := by
  induction rows generalizing v with
  | nil => rfl
  | cons r rows ih =>
    rcases List.pairwise_cons.mp hdis with ⟨hr, hrows⟩
    by_cases hm : r.getD 0 0 < f ∧ f ≤ r.getD 1 0
    · have hnone : ∀ l ∈ rows, ¬(l.getD 0 0 < f ∧ f ≤ l.getD 1 0) := by
        intro l hl hc
        have hfl : f ≤ l.getD 0 0 := le_trans hm.2 (hr l hl)
        exact absurd hc.1 (not_lt.mpr hfl)
      rw [List.foldl_cons, if_pos hm,
        List.find?_cons_of_pos _ (by simpa using hm),
        foldl_rows_nomatch idx f _ rows hnone]
    · rw [List.foldl_cons, if_neg hm,
        List.find?_cons_of_neg _ (by simpa using hm)]
      exact ih _ hrows

/-- Every row list in `limit_table` is non-empty and has sorted, disjoint
ranges. -/
theorem limit_table_rows_sound (standard : String) (rows : List (List ℚ))
    (h : limit_table.lookup standard = some rows) :
    rows ≠ [] ∧ rows.Pairwise (fun a b => a.getD 1 0 ≤ b.getD 0 0) := by
  simp only [limit_table, List.lookup] at h
  repeat' split at h
  all_goals first
    | (injection h with h
       subst h
       exact ⟨by simp, by norm_num [List.pairwise_cons]⟩)
    | injection h

/-- Core evaluation lemma: on a known standard and unit, `limit_func` maps
each frequency through the spec's per-frequency lookup. -/
theorem limit_func_eval (standard units : String) (freq : List ℚ)
    (rows : List (List ℚ)) (idx : ℕ)
    (hstd : limit_table.lookup standard = some rows)
    (hu : unit_index.lookup units = some idx) :
    limit_func standard units freq = .ok (freq.map (limitSpecValue rows idx)) := by
  obtain ⟨hne, hdis⟩ := limit_table_rows_sound standard rows hstd
  have hidx : getUnitIdx units = .ok idx := by simp [getUnitIdx, hu]
  obtain ⟨first, rest, rfl⟩ : ∃ a l, rows = a :: l := by
    cases rows with
    | nil => exact absurd rfl hne
    | cons a l => exact ⟨a, l, rfl⟩
  simp only [limit_func, hstd, limitLoop_ok units idx hidx, List.head?_cons, hidx]
  rw [foldl_zipWith_map freq (first :: rest)
    (fun l f v => if l.getD 0 0 < f ∧ f ≤ l.getD 1 0 then l.getD idx 0 else v) (fun _ => 0)]
  rw [zipWith_map_right_same]
  refine congrArg Except.ok (List.map_congr_left (fun f _ => ?_))
  rw [foldl_rows_eq_find idx f 0 (first :: rest) hdis]
  simp only [limitSpecValue, List.headD_cons]

/-- C5: for every frequency array and every known standard and unit,
`limit_func` returns per frequency the value (in the selected unit column)
of the row whose half-open range `(low, high]` contains it, with a frequency
exactly at the lowest boundary mapped to the first row's value and
frequencies outside all ranges mapped to zero (`limitSpecValue`). -/
theorem limit_func_matches_spec (standard units : String) (freq : List ℚ)
    (rows : List (List ℚ)) (idx : ℕ)
    (hstd : limit_table.lookup standard = some rows)
    (hu : unit_index.lookup units = some idx) :
    limit_func standard units freq = .ok (freq.map (limitSpecValue rows idx)) :=
  limit_func_eval standard units freq rows idx hstd hu

/-- Witness for C5: `cispr22classb` in `dBuV/m(3m)` at 30 MHz, 500 MHz and
the out-of-range 10 MHz gives 40.5, 47.5 and 0. -/
theorem limit_func_matches_spec_witness :
    limit_func "cispr22classb" "dBuV/m(3m)" [30000000, 500000000, 10000000] =
      .ok (([30000000, 500000000, 10000000] : List ℚ).map
        (limitSpecValue [[30000000, 230000000, 105.4, 40.5, 31.6, 30],
                         [230000000, 1000000000, 236, 47.5, 70.8, 37]] 3)) ∧
    ([30000000, 500000000, 10000000] : List ℚ).map
        (limitSpecValue [[30000000, 230000000, 105.4, 40.5, 31.6, 30],
                         [230000000, 1000000000, 236, 47.5, 70.8, 37]] 3) =
      [40.5, 47.5, 0] :=
  ⟨limit_func_matches_spec "cispr22classb" "dBuV/m(3m)" [30000000, 500000000, 10000000]
      _ _ rfl rfl,
   by norm_num [limitSpecValue, List.find?]⟩

/-- C8: a lookup with an unrecognized standard fails with the
unknown-standard error, a lookup on a known standard with an unrecognized
unit fails with the unknown-unit error, and every recognized pair
succeeds. -/
theorem limit_func_errors (standard units : String) (freq : List ℚ) :
    (limit_table.lookup standard = none →
      limit_func standard units freq = .error .unknownStandard) ∧
    (∀ rows, limit_table.lookup standard = some rows → unit_index.lookup units = none →
      limit_func standard units freq = .error .unknownUnit) ∧
    (∀ rows idx, limit_table.lookup standard = some rows → unit_index.lookup units = some idx →
      ∃ v, limit_func standard units freq = .ok v) := by
  refine ⟨fun h => ?_, fun rows hstd hu => ?_, fun rows idx hstd hu => ?_⟩
  · simp only [limit_func, h]
  · obtain ⟨hne, -⟩ := limit_table_rows_sound standard rows hstd
    have hidx : getUnitIdx units = .error .unknownUnit := by simp [getUnitIdx, hu]
    obtain ⟨first, rest, rfl⟩ : ∃ a l, rows = a :: l := by
      cases rows with
      | nil => exact absurd rfl hne
      | cons a l => exact ⟨a, l, rfl⟩
    simp only [limit_func, hstd, limitLoop, hidx]
  · exact ⟨_, limit_func_eval standard units freq rows idx hstd hu⟩

/-- Witness for C8: a misspelled standard, a misspelled unit on a known
standard, and one fully recognized pair. -/
theorem limit_func_errors_witness :
    limit_func "cispr17" "dBuV/m(3m)" [50000000] = .error .unknownStandard ∧
    limit_func "fccclassa" "dBm" [50000000] = .error .unknownUnit ∧
    ∃ v, limit_func "fccclassa" "uV/m(3m)" [50000000] = .ok v :=
  ⟨(limit_func_errors "cispr17" "dBuV/m(3m)" [50000000]).1 rfl,
   (limit_func_errors "fccclassa" "dBm" [50000000]).2.1 _ rfl rfl,
   (limit_func_errors "fccclassa" "uV/m(3m)" [50000000]).2.2 _ _ rfl rfl⟩

/-! ## C9: calibration-table loading -/

theorem mapOption_eq_none {α β : Type} (f : α → Option β) (l : List α) (a : α)
    (ha : a ∈ l) (hf : f a = none) : mapOption f l = none := by
  induction l with
  | nil => cases ha
  | cons x l ih =>
    rcases List.mem_cons.mp ha with rfl | hmem
    · simp [mapOption, hf]
    · rw [mapOption]
      cases hx : f x with
      | none => rfl
      | some b => rw [ih hmem]

theorem parseMatrix_none_of_str (rows : List (List CsvCell)) (r : List CsvCell)
    (hr : r ∈ rows) (c : CsvCell) (hc : c ∈ r) (hstr : ∀ q, c ≠ CsvCell.num q) :
    parseMatrix rows = none := by
  have hcell : cellNum c = none := by
    cases c with
    | str s => rfl
    | num q => exact absurd rfl (hstr q)
  have hrow : mapOption cellNum r = none := mapOption_eq_none cellNum r c hc hcell
  rw [parseMatrix, mapOption_eq_none (fun r => mapOption cellNum r) rows r hr hrow]

/-- The strictly-increasing frequency column of a successfully fitted table
has no duplicates, so its distinct-point count is its length. -/
theorem dedup_length_of_chain (f : List ℚ) (h : List.Chain' (· < ·) f) :
    f.dedup.length = f.length := by
  have hp : f.Pairwise (· < ·) := (List.chain'_iff_pairwise).mp h
  rw [List.dedup_eq_self.mpr (List.Pairwise.imp ne_of_lt hp)]

/-- C9: loading a calibration source fails with the format error when the
header line is absent or a data cell is non-numeric, fails with the data
error when the (2-column, non-empty) numeric table has fewer than 4 distinct
frequencies, and succeeds on a 2-column numeric table with at least 4
strictly increasing frequencies; likewise for the antenna loader. -/
theorem calibration_load_errors (name : String) (rows : List (List CsvCell)) (loss : Bool)
    (splev : List ℚ → List ℚ → ℚ → ℚ) :
    (skipHeader [CsvCell.str "Frequency", CsvCell.str "Factor"] rows = none →
      component.init name rows loss splev = .error .formatError) ∧
    (∀ rest, skipHeader [CsvCell.str "Frequency", CsvCell.str "Factor"] rows = some rest →
      (∃ r ∈ rest, ∃ c ∈ r, ∀ q, c ≠ CsvCell.num q) →
      component.init name rows loss splev = .error .formatError) ∧
    (∀ rest M, skipHeader [CsvCell.str "Frequency", CsvCell.str "Factor"] rows = some rest →
      parseMatrix rest = some M → M ≠ [] → (∀ r ∈ M, r.length = 2) →
      (M.map (fun r => r.getD 0 0)).dedup.length < 4 →
      component.init name rows loss splev = .error .dataError) ∧
    (∀ rest M, skipHeader [CsvCell.str "Frequency", CsvCell.str "Factor"] rows = some rest →
      parseMatrix rest = some M → (∀ r ∈ M, r.length = 2) →
      4 ≤ M.length → List.Chain' (· < ·) (M.map (fun r => r.getD 0 0)) →
      ∃ c, component.init name rows loss splev = .ok c) ∧
    (skipHeader [CsvCell.str "Frequency", CsvCell.str "AF"] rows = none →
      antenna.init rows splev = .error .formatError) ∧
    (∀ rest, skipHeader [CsvCell.str "Frequency", CsvCell.str "AF"] rows = some rest →
      (∃ r ∈ rest, ∃ c ∈ r, ∀ q, c ≠ CsvCell.num q) →
      antenna.init rows splev = .error .formatError) ∧
    (∀ rest M, skipHeader [CsvCell.str "Frequency", CsvCell.str "AF"] rows = some rest →
      parseMatrix rest = some M → M ≠ [] → (∀ r ∈ M, r.length = 2) →
      (M.map (fun r => r.getD 0 0)).dedup.length < 4 →
      antenna.init rows splev = .error .dataError) ∧
    (∀ rest M, skipHeader [CsvCell.str "Frequency", CsvCell.str "AF"] rows = some rest →
      parseMatrix rest = some M → (∀ r ∈ M, r.length = 2) →
      4 ≤ M.length → List.Chain' (· < ·) (M.map (fun r => r.getD 0 0)) →
      ∃ a, antenna.init rows splev = .ok a) := by
  have hcol : ∀ (M : List (List ℚ)) (j : ℕ), M ≠ [] → (∀ r ∈ M, r.length = 2) → j < 2 →
      colAt M j = some (M.map (fun r => r.getD j 0)) := by
    intro M j hne h2 hj
    rw [colAt, if_pos ⟨hne, List.all_eq_true.mpr (fun r hr => by
      simpa using lt_of_lt_of_le hj (le_of_eq (h2 r hr).symm))⟩]
  have hfail : ∀ (M : List (List ℚ)), M ≠ [] → (∀ r ∈ M, r.length = 2) →
      (M.map (fun r => r.getD 0 0)).dedup.length < 4 →
      ¬(4 ≤ (M.map (fun r => r.getD 0 0)).length ∧
        List.Chain' (· < ·) (M.map (fun r => r.getD 0 0))) := by
    intro M hne h2 hlt ⟨hlen, hch⟩
    rw [dedup_length_of_chain _ hch] at hlt
    exact absurd hlen (not_le.mpr hlt)
  refine ⟨fun h => ?_, fun rest hh hcell => ?_, fun rest M hh hp hne h2 hlt => ?_,
    fun rest M hh hp h2 hlen hch => ?_,
    fun h => ?_, fun rest hh hcell => ?_, fun rest M hh hp hne h2 hlt => ?_,
    fun rest M hh hp h2 hlen hch => ?_⟩
  · simp only [component.init, h]
  · obtain ⟨r, hr, c, hc, hstr⟩ := hcell
    simp only [component.init, hh, parseMatrix_none_of_str rest r hr c hc hstr]
  · have hMne : M ≠ [] := hne
    simp only [component.init, hh, hp, hcol M 0 hMne h2 (by norm_num),
      hcol M 1 hMne h2 (by norm_num)]
    rw [if_neg (hfail M hMne h2 hlt)]
  · have hMne : M ≠ [] := by
      intro hM
      rw [hM] at hlen
      simp at hlen
    refine ⟨{ name := name, loss := loss, factors := M,
              tck := splev (M.map (fun r => r.getD 0 0)) (M.map (fun r => r.getD 1 0)),
              start_freq := (M.map (fun r => r.getD 0 0)).headD 0,
              stop_freq := (M.map (fun r => r.getD 0 0)).getLastD 0 }, ?_⟩
    simp only [component.init, hh, hp, hcol M 0 hMne h2 (by norm_num),
      hcol M 1 hMne h2 (by norm_num)]
    rw [if_pos ⟨by simpa using hlen, hch⟩]
  · simp only [antenna.init, h]
  · obtain ⟨r, hr, c, hc, hstr⟩ := hcell
    simp only [antenna.init, hh, parseMatrix_none_of_str rest r hr c hc hstr]
  · have hMne : M ≠ [] := hne
    simp only [antenna.init, hh, hp, hcol M 0 hMne h2 (by norm_num),
      hcol M 1 hMne h2 (by norm_num)]
    rw [if_neg (hfail M hMne h2 hlt)]
  · have hMne : M ≠ [] := by
      intro hM
      rw [hM] at hlen
      simp at hlen
    refine ⟨{ afe := M,
              tck := splev (M.map (fun r => r.getD 0 0)) (M.map (fun r => r.getD 1 0)),
              start_freq := (M.map (fun r => r.getD 0 0)).headD 0,
              stop_freq := (M.map (fun r => r.getD 0 0)).getLastD 0 }, ?_⟩
    simp only [antenna.init, hh, hp, hcol M 0 hMne h2 (by norm_num),
      hcol M 1 hMne h2 (by norm_num)]
    rw [if_pos ⟨by simpa using hlen, hch⟩]







/-- Witness for C9: a source without the header, one with a non-numeric
cell, one with fewer than 4 points, and loadable 4-point tables for both
loaders. -/
theorem calibration_load_errors_witness :
    component.init "Antenna factor" calRowsNoHeader true splevEx = .error .formatError ∧
    component.init "Antenna factor" calRowsBadCell true splevEx = .error .formatError ∧
    component.init "Antenna factor" calRowsShort true splevEx = .error .dataError ∧
    (∃ c, component.init "Antenna factor" calRowsGood true splevEx = .ok c) ∧
    (∃ a, antenna.init calRowsGoodAF splevEx = .ok a) :=
  ⟨(calibration_load_errors "Antenna factor" calRowsNoHeader true splevEx).1 rfl,
   (calibration_load_errors "Antenna factor" calRowsBadCell true splevEx).2.1
     [[CsvCell.num 30000000, CsvCell.str "oops"]] rfl
     ⟨[CsvCell.num 30000000, CsvCell.str "oops"], by decide, CsvCell.str "oops", by decide,
       fun q h => CsvCell.noConfusion h⟩,
   (calibration_load_errors "Antenna factor" calRowsShort true splevEx).2.2.1
     [[CsvCell.num 30000000, CsvCell.num 10], [CsvCell.num 100000000, CsvCell.num 12]]
     [[30000000, 10], [100000000, 12]] rfl rfl (by decide) (by decide) (by decide),
   (calibration_load_errors "Antenna factor" calRowsGood true splevEx).2.2.2.1
     _ [[30000000, 10], [100000000, 12], [300000000, 15], [1000000000, 18]]
     rfl rfl (by decide) (by decide) (by norm_num),
   (calibration_load_errors "Antenna factor" calRowsGoodAF true splevEx).2.2.2.2.2.2.2
     _ [[30000000, 10], [100000000, 12], [300000000, 15], [1000000000, 18]]
     rfl rfl (by decide) (by decide) (by norm_num)⟩

/-! ## C3 / C4: loading serialized measurement records -/

theorem dictUpdateSeq_str_ne2 (d : List (String × PyVal)) (s : String) (xs : List PyVal)
    (h : ¬ s.length = 2) : dictUpdateSeq d (PyVal.str s :: xs) = .error .valueError := by
  simp only [dictUpdateSeq, if_neg h]




theorem save_mEx : Measurement.save_to_csv mEx = .ok fEx := by
  norm_num [Measurement.save_to_csv, mEx, cAntEx, Measurement.init_new,
    Measurement.initTail, Measurement.add_trace, Measurement.add_component,
    Measurement.freq, Measurement.measured, Measurement.corrected,
    component.corrected_measurement, component.get_factors,
    dsa800_config.get_json_names, dsa800_config.get_json_values, jsonDumps, default_param,
    List.transpose, fEx]
  decide

theorem load_fEx : Measurement.init_from_file fEx = .error .valueError := by
  have h2 : dictUpdateSeq default_param
      [PyVal.str "\"data_format\"", PyVal.str "\"trace_mode\"", PyVal.str "\"sweep_points\"",
       PyVal.str "\"preamp_en\"", PyVal.str "\"units\"", PyVal.str "\"emi_filter_en\"",
       PyVal.str "\"rbw\"", PyVal.str "\"tg_en\"", PyVal.str "\"tg_amplitude\"",
       PyVal.str "\"det_func\""] = .error .valueError :=
    dictUpdateSeq_str_ne2 _ _ _ (by decide)
  simp [Measurement.init_from_file, Measurement.load_csv, fEx, dsa800_config.init,
    pyTruthy, dictUpdate, h2]

/-- C4: the serialize/deserialize round trip of an assembled measurement
does not reproduce anything — it raises: `load_csv` passes the JSON key
list positionally into the `param` slot of `dsa800_config`, whose
`dict.update` then fails with `ValueError` on the JSON key strings. -/
theorem roundTrip_fails : roundTrip mEx = .error .valueError := by
  simp [roundTrip, save_mEx, load_fEx]


/-- C3 (refuting evaluation): a record loaded from a serialized form never
returns its stored `Corrected`/`Limit` columns.  Loading `fStored` raises
`ValueError` in the configuration parser; and even past that point, the
`__init__` tail resets both cached columns to `None`, after which
`corrected()` recomputes over the (emptied) component list and returns the
raw `DSA` column instead of the stored one. -/
theorem loaded_record_discards_stored_columns :
    Measurement.init_from_file fStored = .error .valueError ∧
    (∀ m : Measurement,
      (Measurement.initTail m).corrected_data = none ∧
      (Measurement.initTail m).limit_data = none ∧
      (Measurement.initTail m).corrected = m.data.map (fun r => r.getD 1 0)) := by
  constructor
  · have h2 : dictUpdateSeq default_param [PyVal.str "\"trace_mode\""] = .error .valueError :=
      dictUpdateSeq_str_ne2 _ _ _ (by decide)
    simp [Measurement.init_from_file, Measurement.load_csv, fStored, dsa800_config.init,
      pyTruthy, dictUpdate, h2]
  · exact fun m => ⟨rfl, rfl, rfl⟩

/-! ## C1 / C6 / C7 / C10: the segmented acquisition -/

theorem applyMask_map_self (p : ℚ → Bool) (l : List ℚ) :
    applyMask (l.map p) l = l.filter p := by
  induction l with
  | nil => rfl
  | cons a l ih => cases hp : p a <;> simp [applyMask, hp, ih, List.filter_cons]

theorem applyMask_length (p : ℚ → Bool) (l₁ l₂ : List ℚ) (h : l₁.length = l₂.length) :
    (applyMask (l₁.map p) l₂).length = (l₁.filter p).length := by
  induction l₁ generalizing l₂ with
  | nil => rfl
  | cons a l ih =>
    cases l₂ with
    | nil => simp at h
    | cons b l₂ =>
      have h' : l.length = l₂.length := by simpa using h
      cases hp : p a <;> simp [applyMask, hp, List.filter_cons, ih l₂ h']

theorem mem_applyMask (p : ℚ → Bool) (l : List ℚ) (x : ℚ)
    (hx : x ∈ applyMask (l.map p) l) : p x = true := by
  rw [applyMask_map_self] at hx
  exact (List.mem_filter.mp hx).2

theorem linspace_length (a b : ℚ) (n : ℕ) : (linspace a b n).length = n := by
  rw [linspace]
  split
  · simp [*]
  · split
    · simp [*]
    · rw [List.length_map, List.length_range]

theorem linspace_eq_map (a b : ℚ) (n : ℕ) (h : 2 ≤ n) :
    linspace a b n = (List.range n).map (fun i : ℕ => a + (i : ℚ) * ((b - a) / ((n : ℚ) - 1))) := by
  rw [linspace, if_neg (by omega), if_neg (by omega)]

theorem pyInt_intCast (z : ℤ) : pyInt (z : ℚ) = z := by
  rw [pyInt]
  split
  · exact Int.floor_intCast z
  · exact Int.ceil_intCast z

theorem segLoop_exit (read : ℕ → List ℚ) (stop span : ℚ) (tm : String)
    (fuel i : ℕ) (start_f : ℚ) (st : InstrState) (trace : List ℚ) (td : Option (List ℚ))
    (h : ¬ start_f < stop) :
    segLoop read stop span tm fuel i start_f st trace td = .done st trace td := by
  conv_lhs => rw [segLoop.eq_def]
  simp only [if_neg h]

theorem segLoop_step (read : ℕ → List ℚ) (stop span : ℚ) (tm : String)
    (fuel i : ℕ) (start_f : ℚ) (st : InstrState) (trace : List ℚ) (td : Option (List ℚ))
    (h : start_f < stop) :
    segLoop read stop span tm (fuel + 1) i start_f st trace td =
      segLoop read stop span tm fuel (i + 1) (start_f + span)
        (dsa800.set_stop_freq (dsa800.set_start_freq (dsa800.set_trace_mode st tm) start_f)
          (start_f + span))
        (trace ++ (read i).dropLast) (some (read i)) := by
  conv_lhs => rw [segLoop.eq_def]
  simp only [if_pos h]

/-- Running the segment loop over `n` full segments (`stop` exactly
`n` spans away): it terminates, accumulates all but the last sample of each
of the `n` buffers, leaves the `n`-th buffer in `trace_data`, and leaves the
instrument's stop frequency programmed at the overall stop. -/
theorem segLoop_run (read : ℕ → List ℚ) (span : ℚ) (tm : String) (pps : ℕ)
    (hspan : 0 < span) (hread : ∀ k, (read k).length = pps) :
    ∀ n : ℕ, 1 ≤ n → ∀ fuel : ℕ, n ≤ fuel → ∀ (i : ℕ) (start_f : ℚ) (st : InstrState)
      (trace : List ℚ) (td : Option (List ℚ)),
      ∃ st' tr buf,
        segLoop read (start_f + (n : ℚ) * span) span tm fuel i start_f st trace td =
          .done st' (trace ++ tr) (some buf) ∧
        tr.length = n * (pps - 1) ∧ buf.length = pps ∧
        st'.stopFreq = pyInt (start_f + (n : ℚ) * span) := by
  intro n
  induction n with
  | zero => omega
  | succ n ih =>
    intro _ fuel hfuel i start_f st trace td
    have hlt : start_f < start_f + ((n + 1 : ℕ) : ℚ) * span := by
      have hpos : (0:ℚ) < ((n:ℚ) + 1) * span := by positivity
      push_cast
      linarith
    obtain ⟨fuel, rfl⟩ : ∃ f, fuel = f + 1 := ⟨fuel - 1, by omega⟩
    rw [segLoop_step read _ span tm fuel i start_f st trace td hlt]
    by_cases hn : n = 0
    · subst hn
      rw [segLoop_exit read _ span tm fuel (i+1) (start_f + span) _ _ _
        (by push_cast; simp)]
      refine ⟨_, (read i).dropLast, read i, rfl, ?_, hread i, ?_⟩
      · rw [List.length_dropLast, hread i]
        omega
      · show pyInt (start_f + span) = pyInt (start_f + ((0 + 1 : ℕ) : ℚ) * span)
        exact congrArg pyInt (by push_cast; ring)
    · have h1n : 1 ≤ n := by omega
      have hfn : n ≤ fuel := by omega
      have harith : start_f + ((n + 1 : ℕ) : ℚ) * span = (start_f + span) + (n : ℚ) * span := by
        push_cast
        ring
      obtain ⟨st', tr, buf, heq, hlen, hbuf, hstop⟩ :=
        ih h1n fuel hfn (i + 1) (start_f + span)
          (dsa800.set_stop_freq (dsa800.set_start_freq (dsa800.set_trace_mode st tm) start_f)
            (start_f + span))
          (trace ++ (read i).dropLast) (some (read i))
      refine ⟨st', (read i).dropLast ++ tr, buf, ?_, ?_, hbuf, ?_⟩
      · rw [harith, ← List.append_assoc]
        exact heq
      · rw [List.length_append, List.length_dropLast, hread i, hlen, Nat.succ_mul]
        omega
      · rw [harith]
        exact hstop

theorem pairwise_map_range_lt (a s : ℚ) (hs : 0 < s) (m : ℕ) :
    ((List.range m).map (fun i : ℕ => a + (i : ℚ) * s)).Pairwise (· < ·) := by
  rw [List.pairwise_map]
  apply List.Pairwise.imp ?_ (List.pairwise_lt_range m)
  intro i j hij
  have hq : (i : ℚ) < j := by exact_mod_cast hij
  have := mul_lt_mul_of_pos_right hq hs
  linarith

/-- The `freq < stop_freq` cut applied to the reconstructed axis keeps
exactly the first `n - 1` points: the linspace endpoint sits exactly at the
stop frequency and is removed. -/
theorem filter_linspace (a b : ℚ) (n : ℕ) (h2 : 2 ≤ n) (hab : a < b) :
    (linspace a b n).filter (fun f => decide (f < b)) =
      (List.range (n - 1)).map (fun i : ℕ => a + (i : ℚ) * ((b - a) / ((n : ℚ) - 1))) := by
  have hn1 : (0:ℚ) < (n : ℚ) - 1 := by
    have : (2:ℚ) ≤ (n:ℚ) := by exact_mod_cast h2
    linarith
  have hs : 0 < (b - a) / ((n : ℚ) - 1) := div_pos (by linarith) hn1
  have hb : a + ((n : ℚ) - 1) * ((b - a) / ((n : ℚ) - 1)) = b := by
    rw [mul_div_cancel₀ (b - a) (ne_of_gt hn1)]
    ring
  have hcast : ((n - 1 : ℕ) : ℚ) = (n : ℚ) - 1 := by
    have h1n : (1:ℕ) ≤ n := by omega
    push_cast [Nat.cast_sub h1n]
    ring
  rw [linspace_eq_map a b n h2, List.filter_map]
  have hpred : ∀ i ∈ List.range n,
      ((fun f => decide (f < b)) ∘ (fun i : ℕ => a + (i : ℚ) * ((b - a) / ((n : ℚ) - 1)))) i =
        decide (i < n - 1) := by
    intro i _
    simp only [Function.comp_apply, decide_eq_decide]
    constructor
    · intro hlt
      have hmul : (i:ℚ) * ((b - a) / ((n : ℚ) - 1)) < ((n:ℚ) - 1) * ((b - a) / ((n : ℚ) - 1)) := by
        linarith
      have hq := (mul_lt_mul_right hs).mp hmul
      rw [← hcast] at hq
      exact_mod_cast hq
    · intro hlt
      have hq : (i:ℚ) < (n:ℚ) - 1 := by
        rw [← hcast]
        exact_mod_cast hlt
      have hmul := (mul_lt_mul_of_pos_right hq hs)
      linarith
  rw [List.filter_congr hpred]
  have hsplit : n = (n - 1) + 1 := by omega
  rw [hsplit, List.range_succ, List.filter_append,
    List.filter_eq_self.mpr (fun x hx => by simpa using (List.mem_range.mp hx))]
  simp

/-- Core evaluation of a divisible-range acquisition: with `S` exact
segments of `pps` samples each, the returned trace has `S * (pps - 1)`
points and a strictly increasing frequency axis. -/
theorem get_trace_adv_divisible_eval (read : ℕ → List ℚ) (st : InstrState)
    (start stop span : ℤ) (S pps : ℕ) (sweeps : ℤ) (fuel : ℕ)
    (hspan : 0 < span) (hstop : stop = start + S * span) (hS : 1 ≤ S) (hpps : 2 ≤ pps)
    (hread : ∀ k, (read k).length = pps) (hfuel : S ≤ fuel) :
    ∃ st' tr,
      dsa800.get_trace_adv read st (start : ℚ) (stop : ℚ) (span : ℚ) sweeps fuel =
        .ok st' tr ∧
      tr.length = S * (pps - 1) ∧
      (tr.map Prod.fst).Pairwise (· < ·) := by
  have hspanQ : (0:ℚ) < (span : ℚ) := by exact_mod_cast hspan
  have hstopQ : (stop : ℚ) = (start : ℚ) + (S : ℚ) * (span : ℚ) := by exact_mod_cast hstop
  obtain ⟨stL, tr₀, buf, heq, hlen0, hbuf, hstopF⟩ :=
    segLoop_run read (span : ℚ)
      (dsa800.set_sweep_count (dsa800.set_continuous_en st false) sweeps).traceMode pps
      hspanQ hread S hS fuel hfuel 0 (start : ℚ)
      (dsa800.set_sweep_count (dsa800.set_continuous_en st false) sweeps) [] none
  obtain ⟨x, hx⟩ : ∃ x, buf.getLast? = some x := by
    cases hb : buf.getLast? with
    | some x => exact ⟨x, rfl⟩
    | none =>
      rw [List.getLast?_eq_none_iff] at hb
      rw [hb] at hbuf
      simp at hbuf
      omega
  rw [hstopQ]
  simp only [dsa800.get_trace_adv]
  rw [heq]
  simp only [hx, List.nil_append]
  have hsfL : stL.stopFreq = stop := by
    rw [hstopF, ← hstopQ, pyInt_intCast]
  have hsfR : (dsa800.set_sweep_count (dsa800.set_continuous_en stL st.continuousEn)
      st.sweepCount).stopFreq = stop := by
    rw [dsa800.set_sweep_count]
    split
    · exact hsfL
    · exact hsfL
  rw [hsfR, ← hstopQ]
  set b := (stop : ℚ) with hbdef
  set a := (start : ℚ) with hadef
  have hab : a < b := by
    have hSpos : (0:ℚ) < (S : ℚ) := by
      have : (1:ℕ) ≤ S := hS
      exact_mod_cast Nat.pos_of_ne_zero (by omega)
    have : (0:ℚ) < (S:ℚ) * (span:ℚ) := mul_pos hSpos hspanQ
    rw [hstopQ]
    linarith
  set n := (tr₀ ++ [x]).length with hndef
  have hlen : n = S * (pps - 1) + 1 := by
    rw [hndef, List.length_append, hlen0]
    rfl
  have hn2 : 2 ≤ n := by
    have hpos : 0 < S * (pps - 1) := Nat.mul_pos (by omega) (by omega)
    omega
  have hmask :
      (linspace a b n).map (fun f => decide (f < b)) =
        (linspace a b n).map (fun f => decide (f < b)) := rfl
  have hfcol : applyMask ((linspace a b n).map (fun f => decide (f < b))) (linspace a b n) =
      (List.range (n - 1)).map (fun i : ℕ => a + (i : ℚ) * ((b - a) / ((n : ℚ) - 1))) := by
    rw [applyMask_map_self, filter_linspace a b n hn2 hab]
  have htlen : (applyMask ((linspace a b n).map (fun f => decide (f < b)))
      (tr₀ ++ [x])).length = n - 1 := by
    rw [applyMask_length _ _ _ (by rw [linspace_length])]
    have := congrArg List.length hfcol
    rw [applyMask_map_self] at this
    rw [this, List.length_map, List.length_range]
  refine ⟨_, _, rfl, ?_, ?_⟩
  · rw [List.length_zip, htlen]
    have := congrArg List.length hfcol
    rw [this, List.length_map, List.length_range]
    omega
  · have hle : (applyMask ((linspace a b n).map (fun f => decide (f < b)))
        (linspace a b n)).length ≤
        (applyMask ((linspace a b n).map (fun f => decide (f < b))) (tr₀ ++ [x])).length := by
      rw [htlen]
      have := congrArg List.length hfcol
      rw [this, List.length_map, List.length_range]
    rw [List.map_fst_zip _ _ hle, hfcol]
    apply pairwise_map_range_lt
    apply div_pos (by linarith)
    have : (2:ℚ) ≤ (n:ℚ) := by exact_mod_cast hn2
    linarith

/-- C1 (amended): over a range exactly divisible by the span, with every
segment read returning `pps ≥ 2` samples, `get_trace_adv` returns a trace
of `S * (pps - 1)` points — each of the `S` segments contributes all
samples but its last, and the endpoint appended after the loop is removed
again by the final stop-frequency cut, because its reconstructed frequency
equals the requested stop — with a strictly increasing frequency axis (no
duplicate adjacent frequencies). -/
theorem get_trace_adv_divisible_count (read : ℕ → List ℚ) (st : InstrState)
    (start stop span : ℤ) (S pps : ℕ) (sweeps : ℤ) (fuel : ℕ)
    (hspan : 0 < span) (hstop : stop = start + S * span) (hS : 1 ≤ S) (hpps : 2 ≤ pps)
    (hread : ∀ k, (read k).length = pps) (hfuel : S ≤ fuel) :
    ∃ st' tr,
      dsa800.get_trace_adv read st (start : ℚ) (stop : ℚ) (span : ℚ) sweeps fuel =
        .ok st' tr ∧
      tr.length = S * (pps - 1) ∧
      (tr.map Prod.fst).Pairwise (· < ·) :=
  get_trace_adv_divisible_eval read st start stop span S pps sweeps fuel
    hspan hstop hS hpps hread hfuel


/-- Witness for the amended C1: two 5 Hz segments over [0, 10] Hz with
2-sample buffers give 2 points. -/
theorem get_trace_adv_divisible_count_witness :
    ∃ st' tr,
      dsa800.get_trace_adv (fun _ => [1, 2]) instrEx ((0:ℤ) : ℚ) ((10:ℤ) : ℚ) ((5:ℤ) : ℚ) 1 5 =
        .ok st' tr ∧
      tr.length = 2 * (2 - 1) ∧
      (tr.map Prod.fst).Pairwise (· < ·) :=
  get_trace_adv_divisible_count (fun _ => [1, 2]) instrEx 0 10 5 2 2 1 5
    (by norm_num) (by norm_num) (by norm_num) (by norm_num) (fun _ => rfl) (by norm_num)

/-- C1 (counterexample): a single 10 Hz segment over [0, 10] Hz with
2-sample buffers returns 1 point, not the
`(stop−start)/span × points_per_segment − (segments−1) = 2` the claim
predicts: the restored endpoint is filtered out again. -/
theorem get_trace_adv_count_counterexample :
    (∃ st' tr,
      dsa800.get_trace_adv (fun _ => [1, 2]) instrEx ((0:ℤ) : ℚ) ((10:ℤ) : ℚ) ((10:ℤ) : ℚ) 1 5 =
        .ok st' tr ∧ tr.length = 1) ∧
    (1 : ℕ) ≠ 1 * 2 - (1 - 1) := by
  constructor
  · obtain ⟨st', tr, heq, hlen, -⟩ :=
      get_trace_adv_divisible_eval (fun _ => [1, 2]) instrEx 0 10 10 1 2 1 5
        (by norm_num) (by norm_num) le_rfl (by norm_num) (fun _ => rfl) (by norm_num)
    exact ⟨st', tr, heq, by simpa using hlen⟩
  · decide

/-- C6: whatever the start/stop/span arguments and segment buffers, every
point in a trace returned by `get_trace_adv` has a frequency strictly below
the requested stop frequency — the final boolean-mask cut guarantees it. -/
theorem get_trace_adv_below_stop (read : ℕ → List ℚ) (st : InstrState)
    (start_freq stop_freq span : ℚ) (sweeps : ℤ) (fuel : ℕ) (st' : InstrState)
    (tr : List (ℚ × ℚ))
    (h : dsa800.get_trace_adv read st start_freq stop_freq span sweeps fuel = .ok st' tr) :
    ∀ p ∈ tr, p.1 < stop_freq := by
  intro p hp
  simp only [dsa800.get_trace_adv] at h
  cases hseg : segLoop read stop_freq span
      (dsa800.set_sweep_count (dsa800.set_continuous_en st false) sweeps).traceMode fuel 0
      start_freq (dsa800.set_sweep_count (dsa800.set_continuous_en st false) sweeps) [] none with
  | fuelOut =>
    rw [hseg] at h
    exact absurd h (by simp)
  | done stL trace td =>
    rw [hseg] at h
    cases td with
    | none => exact absurd h (by simp)
    | some buf =>
      cases hlast : buf.getLast? with
      | none =>
        simp only [hlast] at h
        exact absurd h (by simp)
      | some endpoint =>
        simp only [hlast, AcqResult.ok.injEq] at h
        obtain ⟨-, h2⟩ := h
        subst h2
        obtain ⟨f, v⟩ := p
        have hf := (List.of_mem_zip hp).1
        have := mem_applyMask _ _ _ hf
        exact of_decide_eq_true this

/-- Witness for C6: a non-divisible 5 Hz-segment acquisition over [0, 10] Hz
returns only points below 10 Hz. -/
theorem get_trace_adv_below_stop_witness :
    ∃ st' tr,
      dsa800.get_trace_adv (fun _ => [1, 2]) instrEx ((0:ℤ) : ℚ) ((10:ℤ) : ℚ) ((5:ℤ) : ℚ) 1 5 =
        .ok st' tr ∧
      ∀ p ∈ tr, p.1 < ((10:ℤ) : ℚ) := by
  obtain ⟨st', tr, heq, -, -⟩ :=
    get_trace_adv_divisible_eval (fun _ => [1, 2]) instrEx 0 10 5 2 2 1 5
      (by norm_num) (by norm_num) (by norm_num) (by norm_num) (fun _ => rfl) (by norm_num)
  exact ⟨st', tr, heq,
    get_trace_adv_below_stop (fun _ => [1, 2]) instrEx _ _ _ 1 5 st' tr heq⟩

/-- C7: an acquisition that returns normally leaves the instrument's
continuous-sweep-enable and sweep-count settings as they were on entry
(the entry sweep count being a legal instrument value, 1–9999), whatever
the start/stop/span/sweeps arguments. -/
theorem get_trace_adv_restores_settings (read : ℕ → List ℚ) (st : InstrState)
    (start_freq stop_freq span : ℚ) (sweeps : ℤ) (fuel : ℕ) (st' : InstrState)
    (tr : List (ℚ × ℚ))
    (hlo : 1 ≤ st.sweepCount) (hhi : st.sweepCount ≤ 9999)
    (h : dsa800.get_trace_adv read st start_freq stop_freq span sweeps fuel = .ok st' tr) :
    st'.continuousEn = st.continuousEn ∧ st'.sweepCount = st.sweepCount := by
  simp only [dsa800.get_trace_adv] at h
  cases hseg : segLoop read stop_freq span
      (dsa800.set_sweep_count (dsa800.set_continuous_en st false) sweeps).traceMode fuel 0
      start_freq (dsa800.set_sweep_count (dsa800.set_continuous_en st false) sweeps) [] none with
  | fuelOut =>
    rw [hseg] at h
    exact absurd h (by simp)
  | done stL trace td =>
    rw [hseg] at h
    cases td with
    | none => exact absurd h (by simp)
    | some buf =>
      cases hlast : buf.getLast? with
      | none =>
        simp only [hlast] at h
        exact absurd h (by simp)
      | some endpoint =>
        simp only [hlast, AcqResult.ok.injEq] at h
        obtain ⟨h1, -⟩ := h
        subst h1
        constructor
        · rw [dsa800.set_sweep_count]
          split
          · rfl
          · rfl
        · rw [dsa800.set_sweep_count, if_pos ⟨hlo, hhi⟩]

/-- Witness for C7: a concrete acquisition on an instrument with sweep
count 10 ends with continuous sweep and sweep count restored. -/
theorem get_trace_adv_restores_settings_witness :
    ∃ st' tr,
      dsa800.get_trace_adv (fun _ => [1, 2]) instrEx ((0:ℤ) : ℚ) ((10:ℤ) : ℚ) ((5:ℤ) : ℚ) 1 5 =
        .ok st' tr ∧
      st'.continuousEn = instrEx.continuousEn ∧ st'.sweepCount = instrEx.sweepCount := by
  obtain ⟨st', tr, heq, -, -⟩ :=
    get_trace_adv_divisible_eval (fun _ => [1, 2]) instrEx 0 10 5 2 2 1 5
      (by norm_num) (by norm_num) (by norm_num) (by norm_num) (fun _ => rfl) (by norm_num)
  exact ⟨st', tr, heq,
    get_trace_adv_restores_settings (fun _ => [1, 2]) instrEx _ _ _ 1 5 st' tr
      (by decide) (by decide) heq⟩

/-- C10: with `start_freq ≥ stop_freq` the segment loop never runs and the
call raises (the `NameError` on the never-assigned `trace_data`); a trace is
returned only when `start_freq < stop_freq`. -/
theorem get_trace_adv_empty_range (read : ℕ → List ℚ) (st : InstrState)
    (start_freq stop_freq span : ℚ) (sweeps : ℤ) (fuel : ℕ) :
    (stop_freq ≤ start_freq →
      dsa800.get_trace_adv read st start_freq stop_freq span sweeps fuel = .err) ∧
    (∀ st' tr,
      dsa800.get_trace_adv read st start_freq stop_freq span sweeps fuel = .ok st' tr →
      start_freq < stop_freq) := by
  have herr : stop_freq ≤ start_freq →
      dsa800.get_trace_adv read st start_freq stop_freq span sweeps fuel = .err := by
    intro hle
    simp only [dsa800.get_trace_adv]
    rw [segLoop_exit _ _ _ _ _ _ _ _ _ _ (not_lt.mpr hle)]
  refine ⟨herr, fun st' tr h => ?_⟩
  by_contra hcon
  rw [herr (not_lt.mp hcon)] at h
  exact AcqResult.noConfusion h

/-- Witness for C10: an inverted range raises instead of returning. -/
theorem get_trace_adv_empty_range_witness :
    dsa800.get_trace_adv (fun _ => [1, 2]) instrEx 10 5 1 1 3 = .err :=
  (get_trace_adv_empty_range (fun _ => [1, 2]) instrEx 10 5 1 1 3).1 (by norm_num)
